import Mathlib

/-!
Verification of the viral-content-researcher curation engine.

Shallow embedding of `src/viral_content_researcher/curator.py`,
`models.py` and `researcher.py`.  Python `datetime` values are modelled
as rational timestamps measured in hours, so that
`(now - published).total_seconds() / 3600` becomes plain subtraction.
Python numbers are modelled exactly: `int` as `Int` and scoring
arithmetic over `ℚ`.  `str.lower().split()` is modelled on the
character list of the string (split on whitespace runs, empty chunks
dropped, as Python does).
-/

namespace VCR

/-- Embedding of `ContentCategory` from models.py. -/
inductive ContentCategory where
  | seo | social_media | email_marketing | content_marketing | paid_ads
  | analytics | branding | growth_hacking | influencer | video_marketing
  | ai_marketing | ecommerce | b2b | startup | general
deriving DecidableEq, Repr

/-- Embedding of `TrendSource` from models.py. -/
inductive TrendSource where
  | reddit | google_trends | hacker_news | product_hunt | rss_feed
  | twitter | linkedin | news_api
deriving DecidableEq, Repr

/-- Embedding of `Topic` from models.py (the fields read or written by the curator and
researcher; `published_at` is an optional timestamp in hours). -/
structure Topic where
  id : Option String := none
  title : String
  description : Option String := none
  source : TrendSource
  category : ContentCategory := ContentCategory.general
  score : Int := 0
  comments : Int := 0
  shares : Int := 0
  views : Int := 0
  virality_score : ℚ := 0
  trending_velocity : ℚ := 0
  keywords : List String := []
  published_at : Option ℚ := none
deriving DecidableEq, Repr

/-- Embedding of `ResearchSession` from models.py (the fields the claims are about;
timestamps in hours). -/
structure ResearchSession where
  started_at : ℚ
  completed_at : Option ℚ := none
  topics_discovered : Nat := 0
  topics_curated : Nat := 0
deriving DecidableEq, Repr

/-- Python `s.lower()` on the character list of `s`. -/
def lowerChars (s : String) : List Char := s.data.map Char.toLower

/-- Python `str.split()` (no argument): split on whitespace runs,
dropping empty chunks. -/
def splitWs (l : List Char) : List (List Char) :=
  (l.splitOnP Char.isWhitespace).filter (fun w => w ≠ [])

/-- Python `set(title.lower().split())`: the token set of a title. -/
def titleTokens (s : String) : Finset (List Char) :=
  (splitWs (lowerChars s)).toFinset

/-- Does the character list start with `pat`? -/
def startsWithCL : List Char → List Char → Bool
  | _, [] => true
  | [], _ :: _ => false
  | c :: cs, p :: ps => c = p && startsWithCL cs ps

/-- Does `pat` occur as a contiguous run inside the character list? -/
def occursIn (pat : List Char) : List Char → Bool
  | [] => pat.isEmpty
  | c :: cs => startsWithCL (c :: cs) pat || occursIn pat cs

/-- Python `pat in text` substring test, on lowered character lists. -/
def containsSub (text : List Char) (pat : String) : Bool :=
  occursIn pat.data text

/-- The `ContentCurator` configuration (curator.py `__init__`);
`max_age_hours` kept as a rational for the age comparison. -/
structure ContentCurator where
  min_score : ℚ := 30
  max_age_hours : ℚ := 72
  boost_categories : List ContentCategory :=
    [ContentCategory.ai_marketing, ContentCategory.growth_hacking,
     ContentCategory.seo]
deriving DecidableEq, Repr

/-- Embedding of `ContentCurator.HIGH_VALUE_KEYWORDS`. -/
def HIGH_VALUE_KEYWORDS : List String :=
  ["ai", "chatgpt", "automation", "no-code", "growth",
   "viral", "10x", "secret", "strategy", "hack",
   "free", "tool", "template", "guide", "case study",
   "revenue", "million", "scaling", "framework", "playbook"]

/-- Embedding of `ContentCurator.TRENDING_INDICATORS`. -/
def TRENDING_INDICATORS : List String :=
  ["just launched", "new", "breaking", "update", "2024", "2025",
   "announcement", "release", "introducing", "first"]

/-- Embedding of `ContentCurator.calculate_engagement_score`: conditional per-channel
terms, each added only when the raw count is positive, then capped. -/
def calculate_engagement_score (t : Topic) : ℚ :=
  let s1 : ℚ := if (t.score : ℚ) > 0 then min ((t.score : ℚ) / 50) 40 else 0
  let s2 : ℚ := if (t.comments : ℚ) > 0 then min ((t.comments : ℚ) / 25) 30 else 0
  let s3 : ℚ := if (t.shares : ℚ) > 0 then min ((t.shares : ℚ) / 10) 30 else 0
  min (s1 + s2 + s3) 100

/-- Embedding of `ContentCurator.calculate_recency_score` with the current time passed
explicitly (hours); `hours_old = now - published`. -/
def calculate_recency_score (now : ℚ) (t : Topic) : ℚ :=
  match t.published_at with
  | none => 30
  | some p =>
    let hours_old := now - p
    if hours_old < 2 then 100
    else if hours_old < 6 then 90
    else if hours_old < 12 then 80
    else if hours_old < 24 then 70
    else if hours_old < 48 then 50
    else if hours_old < 72 then 30
    else 10

/-- Embedding of `ContentCurator.calculate_relevance_score`. -/
def calculate_relevance_score (c : ContentCurator) (t : Topic) : ℚ :=
  let text := lowerChars t.title ++ [' '] ++ lowerChars (t.description.getD "")
  let keyword_matches := (HIGH_VALUE_KEYWORDS.filter (containsSub text)).length
  let trending_matches := (TRENDING_INDICATORS.filter (containsSub text)).length
  let s : ℚ := 50 + min ((keyword_matches : ℚ) * 5) 30
      + min ((trending_matches : ℚ) * 5) 15
      + (if t.category ∈ c.boost_categories then 10 else 0)
      + (if t.keywords ≠ [] then min ((t.keywords.length : ℚ) * 2) 10 else 0)
  min s 100

/-- Embedding of `ContentCurator.calculate_velocity_score` with explicit `now`. -/
def calculate_velocity_score (now : ℚ) (t : Topic) : ℚ :=
  if t.trending_velocity > 0 then min t.trending_velocity 100
  else
    match t.published_at with
    | none => 40
    | some p =>
      let hours_old := max (now - p) 1
      let engagement_rate := ((t.score : ℚ) + (t.comments : ℚ) * 2) / hours_old
      if engagement_rate > 50 then 100
      else if engagement_rate > 25 then 80
      else if engagement_rate > 10 then 60
      else if engagement_rate > 5 then 40
      else 20

/-- Per-pair overlap in `calculate_uniqueness_score`:
`len(A ∩ B) / max(len(A), 1)` where `A` is the scored topic's token set. -/
def uniquenessOverlap (t e : Topic) : ℚ :=
  ((titleTokens t.title ∩ titleTokens e.title).card : ℚ)
    / max ((titleTokens t.title).card : ℚ) 1

/-- The `max_overlap` loop of `calculate_uniqueness_score`: batch members
whose `id` equals the scored topic's `id` are skipped. -/
def maxOverlapU (t : Topic) (l : List Topic) : ℚ :=
  l.foldl (fun m e => if e.id = t.id then m else max m (uniquenessOverlap t e)) 0

/-- Embedding of `ContentCurator.calculate_uniqueness_score`; `[]` covers both the
Python `None` default and an empty batch (`if not existing_topics`). -/
def calculate_uniqueness_score (t : Topic) (existing_topics : List Topic) : ℚ :=
  if existing_topics = [] then 70
  else max (100 - maxOverlapU t existing_topics * 100) 10

/-- The uniqueness factor as the SPEC words it (for comparison with the
code's `calculate_uniqueness_score`): maximum pairwise Jaccard overlap
`len(A ∩ B) / len(A ∪ B)` against every other topic of the batch, then
`max(100 - overlap*100, 10)`; 70 with no comparison set. -/
def spec_jaccard_uniqueness (t : Topic) (l : List Topic) : ℚ :=
  if l = [] then 70
  else
    let jac := fun e =>
      ((titleTokens t.title ∩ titleTokens e.title).card : ℚ)
        / ((titleTokens t.title ∪ titleTokens e.title).card : ℚ)
    max (100 - ((l.filter (fun e => e ≠ t)).map jac).foldr max 0 * 100) 10

/-- Python 3 `round` tie-to-even on rationals, to the nearest integer. -/
def roundHalfEven (q : ℚ) : ℤ :=
  let f := ⌊q⌋
  let r := q - f
  if r < 1 / 2 then f
  else if 1 / 2 < r then f + 1
  else if f % 2 = 0 then f else f + 1

/-- Python `round(x, 2)`. -/
def round2 (q : ℚ) : ℚ := (roundHalfEven (q * 100) : ℚ) / 100

/-- Embedding of `ContentCurator.score_topic`: the weighted sum over the five factor
scores (weights from `WEIGHTS`), rounded to two decimals. -/
def score_topic (c : ContentCurator) (now : ℚ) (t : Topic)
    (existing_topics : List Topic) : ℚ :=
  round2 (calculate_engagement_score t * (0.25 : ℚ)
    + calculate_recency_score now t * (0.20 : ℚ)
    + calculate_relevance_score c t * (0.25 : ℚ)
    + calculate_velocity_score now t * (0.15 : ℚ)
    + calculate_uniqueness_score t existing_topics * (0.15 : ℚ))

/-- Pairwise overlap in `deduplicate_topics`: token-set Jaccard
`len(A ∩ B) / max(len(A ∪ B), 1)`. -/
def dedupOverlap (t e : Topic) : ℚ :=
  ((titleTokens t.title ∩ titleTokens e.title).card : ℚ)
    / max ((titleTokens t.title ∪ titleTokens e.title).card : ℚ) 1

/-- The duplicate test `overlap >= similarity_threshold`. -/
def isDup (thr : ℚ) (t e : Topic) : Bool := thr ≤ dedupOverlap t e

/-- One iteration of the `deduplicate_topics` outer loop: the incoming
topic is compared against accepted topics in order; at the first hit it
either replaces the accepted entry (strictly higher score; the
replacement is appended at the end, as `list.remove` + `append` do) or is
dropped; with no hit it is appended. -/
def dedupStep (thr : ℚ) (unique_topics : List Topic) (t : Topic) : List Topic :=
  match unique_topics.find? (fun e => isDup thr t e) with
  | some e =>
    if e.virality_score < t.virality_score then unique_topics.erase e ++ [t]
    else unique_topics
  | none => unique_topics ++ [t]

/-- Embedding of `ContentCurator.deduplicate_topics`. -/
def deduplicate_topics (thr : ℚ) (topics : List Topic) : List Topic :=
  topics.foldl (dedupStep thr) []

/-- Stable descending insertion by `virality_score`: the new element goes
in front of the first accepted element that does not strictly outscore
it, so earlier list elements stay ahead of equal-scored later ones. -/
def insertDesc (t : Topic) : List Topic → List Topic
  | [] => [t]
  | x :: xs =>
    if t.virality_score < x.virality_score then x :: insertDesc t xs
    else t :: x :: xs

/-- Stable sort, descending by `virality_score` — extensionally the
Python `list.sort(key=..., reverse=True)` (Timsort is stable, and a
stable sort for a fixed key order is unique). -/
def sortByScoreDesc : List Topic → List Topic
  | [] => []
  | x :: xs => insertDesc x (sortByScoreDesc xs)

/-- The category filter of `curate_topics`: Python `if categories:` is
falsy both for `None` and for `[]`, so an empty list disables the
filter. -/
def categoryFilter (categories : Option (List ContentCategory))
    (topics : List Topic) : List Topic :=
  match categories with
  | none => topics
  | some cs => if cs = [] then topics else topics.filter (fun t => t.category ∈ cs)

/-- The age filter of `curate_topics`: keep topics with no timestamp or
age at most `max_age_hours`. -/
def ageFilter (c : ContentCurator) (now : ℚ) (topics : List Topic) : List Topic :=
  topics.filter (fun t =>
    match t.published_at with
    | none => true
    | some p => now - p ≤ c.max_age_hours)

/-- The stage of `curate_topics` up to and including scoring: each surviving topic's
`virality_score` is overwritten with `score_topic` against the whole
filtered batch (`score_topic` never reads `virality_score`, so in-place
mutation and this map agree). -/
def curateScored (c : ContentCurator) (now : ℚ) (topics : List Topic)
    (categories : Option (List ContentCategory)) : List Topic :=
  let t2 := ageFilter c now (categoryFilter categories topics)
  t2.map (fun t => { t with virality_score := score_topic c now t t2 })

/-- The stage of `curate_topics` after the `min_score` filter, in original batch
order. -/
def curateFiltered (c : ContentCurator) (now : ℚ) (topics : List Topic)
    (categories : Option (List ContentCategory)) (min_score : Option ℚ) :
    List Topic :=
  let ms := min_score.getD c.min_score
  (curateScored c now topics categories).filter (fun t => ms ≤ t.virality_score)

/-- The sorted list before truncation. -/
def curateSorted (c : ContentCurator) (now : ℚ) (topics : List Topic)
    (categories : Option (List ContentCategory)) (min_score : Option ℚ) :
    List Topic :=
  sortByScoreDesc (curateFiltered c now topics categories min_score)

/-- Embedding of `ContentCurator.curate_topics`. -/
def curate_topics (c : ContentCurator) (now : ℚ) (topics : List Topic)
    (limit : Nat) (categories : Option (List ContentCategory))
    (min_score : Option ℚ) : List Topic :=
  (curateSorted c now topics categories min_score).take limit

/-- From researcher.py: the hard-coded per-source limit in
`research_trending`'s fetch tasks (`self._fetch_from_source(source, limit=50)`). -/
def per_source_fetch_limit : Nat := 50

/-- From researcher.py: `research_category` calls
`research_trending(limit=100, min_score=20.0)`. -/
def research_category_trending_limit : Nat := 100

/-- Embedding of `ViralContentResearcher._fetch_from_source`: a raised source error is
caught and becomes an empty contribution. -/
def fetch_from_source (r : Except Unit (List Topic)) : List Topic :=
  match r with
  | Except.ok l => l
  | Except.error _ => []

/-- The merge loop of `research_trending`: concatenate the per-source
lists, with failed sources contributing nothing. -/
def mergeResults (results : List (Except Unit (List Topic))) : List Topic :=
  results.foldl (fun acc r => acc ++ fetch_from_source r) []

/-- Embedding of `ViralContentResearcher.research_trending`, with the network replaced
by the per-source outcomes: the session is created at the start,
`topics_discovered` is assigned right after the merge loop (before
deduplication), then dedup and curation run, and `topics_curated` and
`completed_at` are assigned last.  The function is total: a failed
source never raises past it. -/
def research_trending (c : ContentCurator) (now : ℚ) (limit : Nat)
    (categories : Option (List ContentCategory)) (min_score : ℚ)
    (results : List (Except Unit (List Topic))) :
    List Topic × ResearchSession :=
  let session0 : ResearchSession := { started_at := now }
  let all_topics := mergeResults results
  let session1 := { session0 with topics_discovered := all_topics.length }
  let deduped := deduplicate_topics (0.6 : ℚ) all_topics
  let curated := curate_topics c now deduped limit categories (some min_score)
  let session2 :=
    { session1 with topics_curated := curated.length, completed_at := some now }
  (curated, session2)

/-- Embedding of `ViralContentResearcher.search`, with the network replaced by
per-source outcomes.  Note: unlike `research_trending`, `search` never
creates or touches a `ResearchSession`. -/
def vcr_search (c : ContentCurator) (now : ℚ) (limit : Nat)
    (results : List (Except Unit (List Topic))) : List Topic :=
  let all_topics := mergeResults results
  let deduped := deduplicate_topics (0.6 : ℚ) all_topics
  curate_topics c now deduped limit none (some 20)

/-! Concrete topics used as test vectors below. -/

/-- Topic titled `"ai"`, id `"1"`. -/
def tU1 : Topic := { id := some "1", title := "ai", source := TrendSource.reddit }

/-- Topic titled `"ai tools"`, id `"2"`. -/
def tU2 : Topic := { id := some "2", title := "ai tools", source := TrendSource.reddit }

/-- The first title of the dedup scenario. -/
def tA : Topic :=
  { title := "AI Marketing Tools for 2025", source := TrendSource.reddit,
    virality_score := 50 }

/-- The second title of the dedup scenario. -/
def tB : Topic :=
  { title := "Best AI Marketing Tools 2025", source := TrendSource.hacker_news,
    virality_score := 80 }

/-- Dedup-idempotence test vector: similar to `s3` only. -/
def s1 : Topic :=
  { title := "a b c", source := TrendSource.reddit, virality_score := 10 }

/-- Dedup-idempotence test vector: similar to `s3` only. -/
def s2 : Topic :=
  { title := "b c d e", source := TrendSource.reddit, virality_score := 10 }

/-- Dedup-idempotence test vector: similar to both `s1` and `s2`, and
higher-scored. -/
def s3 : Topic :=
  { title := "a b c d e", source := TrendSource.reddit, virality_score := 20 }

/-- A minimal topic whose default curation score is `39.5`. -/
def tW : Topic := { title := "hi", source := TrendSource.reddit }

/-- Same-title topics with distinct ids, for the session counterexample. -/
def d1 : Topic := { id := some "1", title := "a", source := TrendSource.reddit }

/-- Same-title topics with distinct ids, for the session counterexample. -/
def d2 : Topic := { id := some "2", title := "a", source := TrendSource.hacker_news }

/-- Identically-titled topics with `id = none` (the model default). -/
def n1 : Topic := { title := "same words", source := TrendSource.reddit }

/-- Identically-titled topics with `id = none` (the model default). -/
def n2 : Topic := { title := "same words", source := TrendSource.hacker_news }

/-- Engagement test vector: score 100, comments 25, shares 10. -/
def tE : Topic :=
  { title := "e", source := TrendSource.reddit, score := 100, comments := 25,
    shares := 10 }


/-- The engagement term `if x > 0 then min (x/d) cap else 0` equals
`min (x/d) cap` whenever `x` is non-negative. -/
theorem engagement_term_eq (x d cap : ℚ) (hx : 0 ≤ x) (hcap : 0 ≤ cap) :
    (if x > 0 then min (x / d) cap else 0) = min (x / d) cap := by
  split_ifs with h
  · rfl
  · have hx0 : x = 0 := le_antisymm (not_lt.mp h) hx
    simp [hx0, hcap]

/-- C7: for non-negative engagement counts, the engagement factor is the
uncapped three-channel sum `min(score/50,40) + min(comments/25,30) +
min(shares/10,30)`, finally capped at 100. -/
theorem engagement_formula (t : Topic) (hs : 0 ≤ t.score) (hc : 0 ≤ t.comments)
    (hsh : 0 ≤ t.shares) :
    calculate_engagement_score t =
      min (min ((t.score : ℚ) / 50) 40 + min ((t.comments : ℚ) / 25) 30
        + min ((t.shares : ℚ) / 10) 30) 100 := by
  have hs' : (0 : ℚ) ≤ (t.score : ℚ) := by exact_mod_cast hs
  have hc' : (0 : ℚ) ≤ (t.comments : ℚ) := by exact_mod_cast hc
  have hsh' : (0 : ℚ) ≤ (t.shares : ℚ) := by exact_mod_cast hsh
  simp only [calculate_engagement_score]
  rw [engagement_term_eq _ 50 40 hs' (by norm_num),
    engagement_term_eq _ 25 30 hc' (by norm_num),
    engagement_term_eq _ 10 30 hsh' (by norm_num)]

/-- Witness for C7 at score 100, comments 25, shares 10. -/
theorem engagement_formula_witness :
    calculate_engagement_score tE =
      min (min ((tE.score : ℚ) / 50) 40 + min ((tE.comments : ℚ) / 25) 30
        + min ((tE.shares : ℚ) / 10) 30) 100 :=
  engagement_formula tE (by decide) (by decide) (by decide)

/-- C5: with three sources of which exactly one raises, the session's
`topics_discovered` is the sum of the two successful sources' counts
(whatever position the failing source is in); the model is a total
function, so no exception reaches the caller. -/
theorem fault_isolation (c : ContentCurator) (now : ℚ) (limit : Nat)
    (cats : Option (List ContentCategory)) (ms : ℚ) (l1 l2 : List Topic) :
    ((research_trending c now limit cats ms
        [Except.error (), Except.ok l1, Except.ok l2]).2.topics_discovered
      = l1.length + l2.length) ∧
    ((research_trending c now limit cats ms
        [Except.ok l1, Except.error (), Except.ok l2]).2.topics_discovered
      = l1.length + l2.length) ∧
    ((research_trending c now limit cats ms
        [Except.ok l1, Except.ok l2, Except.error ()]).2.topics_discovered
      = l1.length + l2.length) := by
  refine ⟨?_, ?_, ?_⟩ <;>
    simp [research_trending, mergeResults, fetch_from_source]

/-- C8 counterexample: `research_category` calls `research_trending` with
final limit 100, while every per-source fetch task requests the fixed 50
items — not more than the final limit. -/
theorem fetch_limit_counterexample :
    ¬ (research_category_trending_limit < per_source_fetch_limit) := by decide

/-- C8 amended: each per-source fetch requests the constant 50 items
(2 times the default limit 25), which exceeds the final limit N exactly
when N < 50. -/
theorem fetch_limit_amended :
    per_source_fetch_limit = 2 * 25 ∧
    ∀ N : Nat, N < per_source_fetch_limit ↔ N < 50 :=
  ⟨rfl, fun _ => Iff.rfl⟩


/-- Folding `max` from 0 over rationals is non-negative. -/
theorem foldr_max_nonneg : ∀ l : List ℚ, 0 ≤ l.foldr max 0
  | [] => le_refl 0
  | x :: xs => le_trans (foldr_max_nonneg xs) (le_max_right x _)

/-- The `max_overlap` accumulator loop rewritten as a maximum over the
non-skipped batch members. -/
theorem maxOverlapU_foldl_eq (t : Topic) :
    ∀ (l : List Topic) (a : ℚ), 0 ≤ a →
      l.foldl (fun m e => if e.id = t.id then m
          else max m (uniquenessOverlap t e)) a
        = max a (((l.filter (fun e => ¬ (e.id = t.id))).map
            (uniquenessOverlap t)).foldr max 0) := by
  intro l
  induction l with
  | nil => intro a ha; simp [max_eq_left ha]
  | cons e es ih =>
    intro a ha
    by_cases hpe : e.id = t.id
    · simp only [List.foldl_cons, if_pos hpe, List.filter_cons]
      rw [ih a ha]
      simp [hpe]
    · simp only [List.foldl_cons, if_neg hpe, List.filter_cons]
      rw [ih (max a (uniquenessOverlap t e)) (le_trans ha (le_max_left _ _))]
      simp only [hpe, decide_not, decide_eq_false_iff_not, not_false_iff,
        if_true, List.map_cons, List.foldr_cons]
      rw [max_assoc]
      simp [hpe]

/-- C2 counterexample: for the pair ("ai", "ai tools") the code's
uniqueness (overlap divided by the scored topic's own token count,
giving 10) differs from the spec's Jaccard-based value (50). -/
theorem uniqueness_not_jaccard :
    calculate_uniqueness_score tU1 [tU2] ≠ spec_jaccard_uniqueness tU1 [tU2] := by
  have hca : (titleTokens tU1.title ∩ titleTokens tU2.title).card = 1 := by decide
  have hcb : (titleTokens tU1.title).card = 1 := by decide
  have hcu : (titleTokens tU1.title ∪ titleTokens tU2.title).card = 2 := by decide
  have hid : ¬ (tU2.id = tU1.id) := by decide
  have hne : ¬ (tU2 = tU1) := by decide
  have h1 : calculate_uniqueness_score tU1 [tU2] = 10 := by
    simp [calculate_uniqueness_score, maxOverlapU, uniquenessOverlap, hid, hca, hcb]
  have h2 : spec_jaccard_uniqueness tU1 [tU2] = 50 := by
    simp [spec_jaccard_uniqueness, hne, hca, hcu]
    norm_num
  rw [h1, h2]; norm_num

/-- C2 amended: the overlap is the share of the scored topic's own
tokens, `len(A ∩ B) / max(len(A), 1)` (not Jaccard), maximised over the
batch members with a different id; with no comparison batch the factor
is 70. -/
theorem uniqueness_containment_characterization (t : Topic) (l : List Topic) :
    calculate_uniqueness_score t [] = 70 ∧
    (l ≠ [] → calculate_uniqueness_score t l =
      max (100 - ((l.filter (fun e => ¬ (e.id = t.id))).map
        (uniquenessOverlap t)).foldr max 0 * 100) 10) := by
  constructor
  · simp [calculate_uniqueness_score]
  · intro hl
    unfold calculate_uniqueness_score maxOverlapU
    rw [if_neg hl, maxOverlapU_foldl_eq t l 0 le_rfl,
      max_eq_right (foldr_max_nonneg _)]

/-- Witness for C2's amended claim at the ("ai", "ai tools") pair. -/
theorem uniqueness_containment_witness :
    calculate_uniqueness_score tU1 [tU2] =
      max (100 - (([tU2].filter (fun e => ¬ (e.id = tU1.id))).map
        (uniquenessOverlap tU1)).foldr max 0 * 100) 10 :=
  (uniqueness_containment_characterization tU1 [tU2]).2 (by simp)

/-- The `max_overlap` loop ignores every batch member when all of them
carry the scored topic's own id. -/
theorem maxOverlapU_skip_all (t : Topic) :
    ∀ (l : List Topic) (a : ℚ), (∀ e ∈ l, e.id = t.id) →
      l.foldl (fun m e => if e.id = t.id then m
        else max m (uniquenessOverlap t e)) a = a := by
  intro l
  induction l with
  | nil => intro a _; rfl
  | cons e es ih =>
    intro a h
    have he : e.id = t.id := h e (List.mem_cons_self e es)
    simp only [List.foldl_cons, if_pos he]
    exact ih a (fun x hx => h x (List.mem_cons_of_mem e hx))

/-- C10: batch members with the scored topic's id are skipped; with every
id `none` (the model default) nothing is compared and the factor is 100
regardless of title overlap. -/
theorem uniqueness_skips_same_id :
    (∀ (t e : Topic) (l1 l2 : List Topic), e.id = t.id →
      maxOverlapU t (l1 ++ e :: l2) = maxOverlapU t (l1 ++ l2)) ∧
    (∀ (t : Topic) (l : List Topic), l ≠ [] → t.id = none →
      (∀ e ∈ l, e.id = none) → calculate_uniqueness_score t l = 100) := by
  constructor
  · intro t e l1 l2 he
    unfold maxOverlapU
    rw [List.foldl_append, List.foldl_append, List.foldl_cons, if_pos he]
  · intro t l hl ht h
    have hskip : maxOverlapU t l = 0 :=
      maxOverlapU_skip_all t l 0 (fun e he => by rw [h e he, ht])
    rw [calculate_uniqueness_score, if_neg hl, hskip]
    norm_num

/-- Witness for C10: identically-titled topics, every id `none`, still
score uniqueness 100. -/
theorem uniqueness_skips_same_id_witness :
    calculate_uniqueness_score n1 [n2] = 100 :=
  uniqueness_skips_same_id.2 n1 [n2] (by simp) rfl
    (by intro e he; simp only [List.mem_singleton] at he; rw [he]; rfl)


/-- Evaluate `isDup` once the two token-set cardinalities are known. -/
theorem isDup_eval (thr : ℚ) (t e : Topic) (a b : ℕ)
    (h1 : (titleTokens t.title ∩ titleTokens e.title).card = a)
    (h2 : (titleTokens t.title ∪ titleTokens e.title).card = b) :
    isDup thr t e = decide (thr ≤ (a : ℚ) / max (b : ℚ) 1) := by
  rw [isDup, dedupOverlap, h1, h2]

/-- A list fold with `dedupStep` over pairwise-dissimilar topics never
finds a duplicate, so it just appends everything. -/
theorem foldl_dedupStep_pairwise (thr : ℚ) :
    ∀ (l acc : List Topic),
      List.Pairwise (fun a b => isDup thr b a = false) (acc ++ l) →
      l.foldl (dedupStep thr) acc = acc ++ l := by
  intro l
  induction l with
  | nil => intro acc _; simp
  | cons t ts ih =>
    intro acc h
    have hnone : acc.find? (fun e => isDup thr t e) = none := by
      apply List.find?_eq_none.mpr
      intro x hx
      have hx2 := (List.pairwise_append.mp h).2.2 x hx t (List.mem_cons_self t ts)
      simp [hx2]
    rw [List.foldl_cons]
    have hstep : dedupStep thr acc t = acc ++ [t] := by
      simp only [dedupStep, hnone]
    rw [hstep]
    have h2 : List.Pairwise (fun a b => isDup thr b a = false) ((acc ++ [t]) ++ ts) := by
      rw [List.append_assoc, List.singleton_append]; exact h
    rw [ih (acc ++ [t]) h2, List.append_assoc, List.singleton_append]

/-- When every topic carries the same `virality_score`, a replacement
never fires and the dedup fold keeps its accumulator pairwise
dissimilar. -/
theorem dedup_const_scores (thr s : ℚ) :
    ∀ (l acc : List Topic), (∀ x ∈ l, x.virality_score = s) →
      (∀ x ∈ acc, x.virality_score = s) →
      List.Pairwise (fun a b => isDup thr b a = false) acc →
      List.Pairwise (fun a b => isDup thr b a = false)
          (l.foldl (dedupStep thr) acc) ∧
        ∀ x ∈ l.foldl (dedupStep thr) acc, x.virality_score = s := by
  intro l
  induction l with
  | nil => intro acc _ hacc hp; exact ⟨hp, hacc⟩
  | cons t ts ih =>
    intro acc hl hacc hp
    have ht : t.virality_score = s := hl t (List.mem_cons_self t ts)
    have hts : ∀ x ∈ ts, x.virality_score = s :=
      fun x hx => hl x (List.mem_cons_of_mem t hx)
    rw [List.foldl_cons]
    rcases hf : acc.find? (fun e => isDup thr t e) with _ | e
    · have hstep : dedupStep thr acc t = acc ++ [t] := by
        simp only [dedupStep, hf]
      rw [hstep]
      apply ih
      · exact hts
      · intro x hx
        rcases List.mem_append.mp hx with h | h
        · exact hacc x h
        · rw [List.mem_singleton.mp h]; exact ht
      · rw [List.pairwise_append]
        refine ⟨hp, List.pairwise_singleton _ _, ?_⟩
        intro a ha b hb
        rw [List.mem_singleton.mp hb]
        have := List.find?_eq_none.mp hf a ha
        simpa using this
    · have he : e ∈ acc := List.mem_of_find?_eq_some hf
      have hnl : ¬ (e.virality_score < t.virality_score) := by
        rw [hacc e he, ht]; exact lt_irrefl s
      have hstep : dedupStep thr acc t = acc := by
        simp only [dedupStep, hf, if_neg hnl]
      rw [hstep]
      exact ih acc hts hacc hp

/-- C3 counterexample: on the batch `[s1, s2, s3]` (where `s3` is
similar to both `s1` and `s2` but `s1` and `s2` are dissimilar, and
`s3` outscores `s1`), one dedup pass keeps the similar pair
`[s2, s3]`, so a second pass shrinks it further. -/
theorem dedup_not_idempotent :
    deduplicate_topics (0.6 : ℚ) (deduplicate_topics (0.6 : ℚ) [s1, s2, s3])
      ≠ deduplicate_topics (0.6 : ℚ) [s1, s2, s3] := by
  have hd21 : isDup (0.6 : ℚ) s2 s1 = false := by
    rw [isDup_eval _ _ _ 2 5 (by decide) (by decide)]
    norm_num [max_def]
  have hd31 : isDup (0.6 : ℚ) s3 s1 = true := by
    rw [isDup_eval _ _ _ 3 5 (by decide) (by decide)]
    norm_num [max_def]
  have hd32 : isDup (0.6 : ℚ) s3 s2 = true := by
    rw [isDup_eval _ _ _ 4 5 (by decide) (by decide)]
    norm_num [max_def]
  have hv13 : s1.virality_score < s3.virality_score := by
    show (10 : ℚ) < 20; norm_num
  have hv23 : s2.virality_score < s3.virality_score := by
    show (10 : ℚ) < 20; norm_num
  have hpass1 : deduplicate_topics (0.6 : ℚ) [s1, s2, s3] = [s2, s3] := by
    simp [deduplicate_topics, dedupStep, List.find?, hd21, hd31, hv13]
  have hpass2 : deduplicate_topics (0.6 : ℚ) [s2, s3] = [s3] := by
    simp [deduplicate_topics, dedupStep, List.find?, hd32, hv23]
  rw [hpass1, hpass2]
  have : s3 ≠ s2 := by decide
  simp [this]

/-- C3 amended: one dedup pass is not idempotent in general (see the
counterexample: a replacement may leave two similar topics accepted),
but it is idempotent on batches whose topics all share one
`virality_score`, since then no replacement ever fires and the output is
pairwise dissimilar. -/
theorem dedup_idempotent_on_equal_scores (thr s : ℚ) (X : List Topic)
    (h : ∀ x ∈ X, x.virality_score = s) :
    deduplicate_topics thr (deduplicate_topics thr X) = deduplicate_topics thr X := by
  have hD := (dedup_const_scores thr s X [] h
    (fun x hx => absurd hx (List.not_mem_nil x)) List.Pairwise.nil).1
  show (X.foldl (dedupStep thr) []).foldl (dedupStep thr) []
    = X.foldl (dedupStep thr) []
  have := foldl_dedupStep_pairwise thr (X.foldl (dedupStep thr) []) []
    (by simpa using hD)
  simpa using this

/-- Witness for C3's amended claim: a two-topic batch of equal scores. -/
theorem dedup_idempotent_witness :
    deduplicate_topics (0.6 : ℚ) (deduplicate_topics (0.6 : ℚ) [s1, s2])
      = deduplicate_topics (0.6 : ℚ) [s1, s2] :=
  dedup_idempotent_on_equal_scores (0.6 : ℚ) 10 [s1, s2] (by
    intro x hx
    rcases List.mem_cons.mp hx with h | h
    · rw [h]; rfl
    · rw [List.mem_singleton.mp h]; rfl)

/-- C4: at the first accepted topic similar to the incoming one, exactly
one of the pair survives the step — the incoming topic if it strictly
outscores the accepted one, otherwise the accepted one; and a two-topic
batch of similar titles dedups to the single higher-scored record. -/
theorem dedup_keeps_higher_scored :
    (∀ (thr : ℚ) (acc : List Topic) (t e : Topic),
      acc.Nodup → t ∉ acc →
      acc.find? (fun x => isDup thr t x) = some e →
      ((e.virality_score < t.virality_score →
          t ∈ dedupStep thr acc t ∧ e ∉ dedupStep thr acc t) ∧
       (¬ e.virality_score < t.virality_score →
          e ∈ dedupStep thr acc t ∧ t ∉ dedupStep thr acc t))) ∧
    (∀ a b : Topic, isDup (0.6 : ℚ) b a = true →
      deduplicate_topics (0.6 : ℚ) [a, b] =
        if a.virality_score < b.virality_score then [b] else [a]) := by
  constructor
  · intro thr acc t e hnd htn hf
    have hmem : e ∈ acc := List.mem_of_find?_eq_some hf
    have hne : e ≠ t := fun h => htn (h ▸ hmem)
    constructor
    · intro hlt
      simp only [dedupStep, hf, if_pos hlt]
      refine ⟨List.mem_append_right _ (List.mem_singleton_self t), ?_⟩
      intro hcon
      rcases List.mem_append.mp hcon with h | h
      · exact ((List.Nodup.mem_erase_iff hnd).mp h).1 rfl
      · exact hne (List.mem_singleton.mp h)
    · intro hge
      simp only [dedupStep, hf, if_neg hge]
      exact ⟨hmem, htn⟩
  · intro a b hab
    show dedupStep (0.6 : ℚ) (dedupStep (0.6 : ℚ) [] a) b = _
    have h1 : dedupStep (0.6 : ℚ) [] a = [a] := by simp [dedupStep]
    rw [h1]
    have hfind : [a].find? (fun e => isDup (0.6 : ℚ) b e) = some a := by
      simp [List.find?, hab]
    simp only [dedupStep, hfind]
    split_ifs with h
    · simp
    · rfl

/-- Witness for C4 at the spec scenario: titles
"AI Marketing Tools for 2025" / "Best AI Marketing Tools 2025"
(token Jaccard 4/6 at threshold 0.6). -/
theorem dedup_keeps_higher_scored_witness :
    deduplicate_topics (0.6 : ℚ) [tA, tB] =
      if tA.virality_score < tB.virality_score then [tB] else [tA] :=
  dedup_keeps_higher_scored.2 tA tB (by
    rw [isDup_eval _ _ _ 4 6 (by decide) (by decide)]
    norm_num [max_def])


/-- Membership in a stable descending insertion. -/
theorem mem_insertDesc (t : Topic) :
    ∀ (l : List Topic) (a : Topic), a ∈ insertDesc t l ↔ a = t ∨ a ∈ l := by
  intro l
  induction l with
  | nil => intro a; simp [insertDesc]
  | cons x xs ih =>
    intro a
    rw [insertDesc]
    split_ifs with h
    · rw [List.mem_cons, ih a, List.mem_cons]
      tauto
    · rw [List.mem_cons, List.mem_cons]

/-- Membership in the stable descending sort. -/
theorem mem_sortByScoreDesc :
    ∀ (l : List Topic) (a : Topic), a ∈ sortByScoreDesc l ↔ a ∈ l := by
  intro l
  induction l with
  | nil => intro a; rw [sortByScoreDesc]
  | cons x xs ih =>
    intro a
    rw [sortByScoreDesc, mem_insertDesc, ih a, List.mem_cons]

/-- Inserting keeps a descending-sorted list descending-sorted. -/
theorem sorted_insertDesc (t : Topic) :
    ∀ l : List Topic,
      List.Pairwise (fun a b => b.virality_score ≤ a.virality_score) l →
      List.Pairwise (fun a b => b.virality_score ≤ a.virality_score)
        (insertDesc t l) := by
  intro l
  induction l with
  | nil => intro _; simp [insertDesc]
  | cons x xs ih =>
    intro hp
    rw [insertDesc]
    rcases List.pairwise_cons.mp hp with ⟨hx, hxs⟩
    split_ifs with h
    · rw [List.pairwise_cons]
      refine ⟨?_, ih hxs⟩
      intro b hb
      rcases (mem_insertDesc t xs b).mp hb with rfl | hbxs
      · exact le_of_lt h
      · exact hx b hbxs
    · rw [List.pairwise_cons]
      refine ⟨?_, hp⟩
      intro b hb
      rcases List.mem_cons.mp hb with rfl | hbxs
      · exact not_lt.mp h
      · exact le_trans (hx b hbxs) (not_lt.mp h)

/-- The output of the sort is descending-sorted. -/
theorem sorted_sortByScoreDesc :
    ∀ l : List Topic,
      List.Pairwise (fun a b => b.virality_score ≤ a.virality_score)
        (sortByScoreDesc l) := by
  intro l
  induction l with
  | nil => rw [sortByScoreDesc]; exact List.Pairwise.nil
  | cons x xs ih => rw [sortByScoreDesc]; exact sorted_insertDesc x _ ih

/-- Inserting interacts with filtering on one exact score value: the new
element lands in front of the equal-scored block (stability). -/
theorem filter_insertDesc (q : ℚ) (t : Topic) :
    ∀ l : List Topic,
      (insertDesc t l).filter (fun x => decide (x.virality_score = q)) =
        if t.virality_score = q
        then t :: l.filter (fun x => decide (x.virality_score = q))
        else l.filter (fun x => decide (x.virality_score = q)) := by
  intro l
  induction l with
  | nil => rw [insertDesc]; split_ifs with h <;> simp [h]
  | cons x xs ih =>
    rw [insertDesc]
    by_cases h : t.virality_score < x.virality_score
    · rw [if_pos h]
      by_cases hx : x.virality_score = q
      · have htq : ¬ t.virality_score = q := by
          intro he
          rw [he, hx] at h
          exact lt_irrefl q h
        simp [List.filter_cons, hx, ih, htq]
      · by_cases ht : t.virality_score = q <;>
          simp [List.filter_cons, hx, ih, ht]
    · rw [if_neg h]
      by_cases ht : t.virality_score = q <;>
        simp [List.filter_cons, ht]

/-- Stability of the sort: filtering any one exact score value gives the
same subsequence, in the same order, as in the unsorted list. -/
theorem filter_sortByScoreDesc (q : ℚ) :
    ∀ l : List Topic,
      (sortByScoreDesc l).filter (fun x => decide (x.virality_score = q)) =
        l.filter (fun x => decide (x.virality_score = q)) := by
  intro l
  induction l with
  | nil => rfl
  | cons x xs ih =>
    rw [sortByScoreDesc, filter_insertDesc]
    by_cases hx : x.virality_score = q
    · rw [if_pos hx, ih, List.filter_cons]
      simp [hx]
    · rw [if_neg hx, ih, List.filter_cons]
      simp [hx]


/-- Unfolding membership in the scored stage: every output record is a
filtered input topic with its `virality_score` overwritten. -/
theorem mem_curateScored (c : ContentCurator) (now : ℚ) (topics : List Topic)
    (cats : Option (List ContentCategory)) (u : Topic)
    (hu : u ∈ curateScored c now topics cats) :
    ∃ t, t ∈ ageFilter c now (categoryFilter cats topics) ∧
      u = { t with virality_score :=
        score_topic c now t (ageFilter c now (categoryFilter cats topics)) } := by
  simp only [curateScored] at hu
  rcases List.mem_map.mp hu with ⟨t, ht, rfl⟩
  exact ⟨t, ht, rfl⟩

/-- C6 amended: every curated topic passes the category filter (when a
NON-EMPTY category list is given; Python treats an empty list like
`None`), meets the effective minimum score, and is fresh enough or
undated; the output is descending by score with ties in original batch
order (stability of the pre-truncation sort), and at most `limit`
long. -/
theorem curate_topics_contract (c : ContentCurator) (now : ℚ)
    (topics : List Topic) (limit : Nat)
    (cats : Option (List ContentCategory)) (ms : Option ℚ) :
    (∀ u ∈ curate_topics c now topics limit cats ms,
      (∀ cs, cats = some cs → cs ≠ [] → u.category ∈ cs) ∧
      ms.getD c.min_score ≤ u.virality_score ∧
      ∀ p, u.published_at = some p → now - p ≤ c.max_age_hours) ∧
    List.Pairwise (fun a b => b.virality_score ≤ a.virality_score)
      (curate_topics c now topics limit cats ms) ∧
    (curate_topics c now topics limit cats ms).length ≤ limit ∧
    ∀ q : ℚ, (curateSorted c now topics cats ms).filter
        (fun u => decide (u.virality_score = q))
      = (curateFiltered c now topics cats ms).filter
        (fun u => decide (u.virality_score = q)) := by
  refine ⟨?_, ?_, ?_, ?_⟩
  · intro u hu
    have h1 : u ∈ curateSorted c now topics cats ms :=
      List.take_subset _ _ hu
    have h2 : u ∈ curateFiltered c now topics cats ms := by
      rw [curateSorted] at h1
      exact (mem_sortByScoreDesc _ u).mp h1
    simp only [curateFiltered, List.mem_filter, decide_eq_true_eq] at h2
    rcases h2 with ⟨hsc, hms⟩
    rcases mem_curateScored c now topics cats u hsc with ⟨t, ht, rfl⟩
    simp only [ageFilter, List.mem_filter] at ht
    rcases ht with ⟨htc, hage⟩
    refine ⟨?_, hms, ?_⟩
    · intro cs hcs hcs0
      rw [hcs, categoryFilter, if_neg hcs0] at htc
      have := (List.mem_filter.mp htc).2
      simpa using this
    · intro p hp
      have hp2 : t.published_at = some p := hp
      rw [hp2] at hage
      simpa using hage
  · rw [curate_topics]
    exact List.Pairwise.sublist (List.take_sublist _ _)
      (by rw [curateSorted]; exact sorted_sortByScoreDesc _)
  · rw [curate_topics]
    exact List.length_take_le _ _
  · intro q
    rw [curateSorted]
    exact filter_sortByScoreDesc q _


/-- Rounding is the identity on integers. -/
theorem roundHalfEven_intCast (n : ℤ) : roundHalfEven (n : ℚ) = n := by
  rw [roundHalfEven]
  simp only [Int.floor_intCast]
  norm_num

/-- Evaluate `round2` when `q * 100` is an integer. -/
theorem round2_eval (n : ℤ) (q : ℚ) (h : q * 100 = (n : ℚ)) :
    round2 q = (n : ℚ) / 100 := by
  rw [round2, h, roundHalfEven_intCast]

/-- The default curation score of the bare topic `tW` (title "hi")
scored against the singleton batch `[tW]`. -/
theorem score_topic_tW : score_topic {} 0 tW [tW] = 79 / 2 := by
  have heng : calculate_engagement_score tW = 0 := by
    norm_num [calculate_engagement_score, tW]
  have hrec : calculate_recency_score 0 tW = 30 := rfl
  have hkw : (HIGH_VALUE_KEYWORDS.filter (containsSub
      (lowerChars tW.title ++ [' '] ++ lowerChars (tW.description.getD "")))).length
      = 0 := by decide
  have htr : (TRENDING_INDICATORS.filter (containsSub
      (lowerChars tW.title ++ [' '] ++ lowerChars (tW.description.getD "")))).length
      = 0 := by decide
  have hrel : calculate_relevance_score {} tW = 50 := by
    have hcat : ¬ (tW.category ∈ ({} : ContentCurator).boost_categories) := by decide
    simp only [calculate_relevance_score, hkw, htr, hcat, if_neg]
    norm_num [tW]
  have hvel : calculate_velocity_score 0 tW = 40 := by
    norm_num [calculate_velocity_score, tW]
  have huni : calculate_uniqueness_score tW [tW] = 100 := by
    have h0 : maxOverlapU tW [tW] = 0 :=
      maxOverlapU_skip_all tW [tW] 0
        (by intro e he; rw [List.mem_singleton.mp he])
    rw [calculate_uniqueness_score, if_neg (by simp), h0]
    norm_num
  rw [score_topic, heng, hrec, hrel, hvel, huni]
  have harith : (0 * (0.25 : ℚ) + 30 * (0.20 : ℚ) + 50 * (0.25 : ℚ)
      + 40 * (0.15 : ℚ) + 100 * (0.15 : ℚ)) = 79 / 2 := by norm_num
  rw [harith, round2_eval 3950 (79 / 2) (by norm_num)]
  norm_num

/-- Full evaluation of the curation pipeline on the batch `[tW]`, for any
category argument that lets `tW` through and any effective minimum score
it meets. -/
theorem curate_topics_tW (cats : Option (List ContentCategory))
    (hcats : categoryFilter cats [tW] = [tW]) (ms : Option ℚ)
    (hms : ms.getD ({} : ContentCurator).min_score ≤ 79 / 2) :
    curate_topics {} 0 [tW] 25 cats ms
      = [{ tW with virality_score := 79 / 2 }] := by
  have hage : ageFilter {} 0 [tW] = [tW] := rfl
  simp only [curate_topics, curateSorted, curateFiltered, curateScored,
    hcats, hage, List.map_cons, List.map_nil, score_topic_tW]
  rw [List.filter_cons]
  simp only [decide_eq_true_eq]
  rw [if_pos (by simpa using hms)]
  rfl


/-- C6 counterexample: with `categories = []` explicitly given, the
filter is skipped (Python falsiness), so a topic whose category is in no
list at all still comes out. -/
theorem curate_empty_categories_counterexample :
    ({ tW with virality_score := (79 / 2 : ℚ) })
        ∈ curate_topics {} 0 [tW] 25 (some []) none ∧
    ({ tW with virality_score := (79 / 2 : ℚ) }).category
        ∉ ([] : List ContentCategory) := by
  constructor
  · rw [curate_topics_tW (some []) rfl none (by norm_num)]
    exact List.mem_singleton_self _
  · simp

/-- Witness for C6's amended contract: the singleton run on `tW` meets
the effective minimum score. -/
theorem curate_topics_contract_witness :
    Option.getD none ({} : ContentCurator).min_score
      ≤ ({ tW with virality_score := (79 / 2 : ℚ) }).virality_score :=
  ((curate_topics_contract {} 0 [tW] 25 none none).1 _
    (by rw [curate_topics_tW none rfl none (by norm_num)]
        exact List.mem_singleton_self _)).2.1

/-- The engagement factor is within [0, 100] unconditionally. -/
theorem engagement_bounds (t : Topic) :
    0 ≤ calculate_engagement_score t ∧ calculate_engagement_score t ≤ 100 := by
  have hterm : ∀ x d cap : ℚ, 0 < d → 0 ≤ cap →
      (0 : ℚ) ≤ if x > 0 then min (x / d) cap else 0 := by
    intro x d cap hd hcap
    split_ifs with h
    · exact le_min (le_of_lt (div_pos h hd)) hcap
    · exact le_refl 0
  simp only [calculate_engagement_score]
  constructor
  · refine le_min ?_ (by norm_num)
    have h1 := hterm ((t.score : ℚ)) 50 40 (by norm_num) (by norm_num)
    have h2 := hterm ((t.comments : ℚ)) 25 30 (by norm_num) (by norm_num)
    have h3 := hterm ((t.shares : ℚ)) 10 30 (by norm_num) (by norm_num)
    linarith
  · exact min_le_right _ _

/-- The recency factor is within [0, 100]. -/
theorem recency_bounds (now : ℚ) (t : Topic) :
    0 ≤ calculate_recency_score now t ∧ calculate_recency_score now t ≤ 100 := by
  simp only [calculate_recency_score]
  split
  · norm_num
  · split_ifs <;> norm_num

/-- The relevance factor is within [0, 100]. -/
theorem relevance_bounds (c : ContentCurator) (t : Topic) :
    0 ≤ calculate_relevance_score c t ∧ calculate_relevance_score c t ≤ 100 := by
  simp only [calculate_relevance_score]
  constructor
  · refine le_min ?_ (by norm_num)
    have h1 : (0 : ℚ) ≤ min (((HIGH_VALUE_KEYWORDS.filter (containsSub
        (lowerChars t.title ++ [' '] ++ lowerChars (t.description.getD "")))).length
          : ℚ) * 5) 30 :=
      le_min (by positivity) (by norm_num)
    have h2 : (0 : ℚ) ≤ min (((TRENDING_INDICATORS.filter (containsSub
        (lowerChars t.title ++ [' '] ++ lowerChars (t.description.getD "")))).length
          : ℚ) * 5) 15 :=
      le_min (by positivity) (by norm_num)
    have h3 : (0 : ℚ) ≤ if t.category ∈ c.boost_categories then (10 : ℚ) else 0 := by
      split_ifs <;> norm_num
    have h4 : (0 : ℚ) ≤ if t.keywords ≠ [] then min ((t.keywords.length : ℚ) * 2) 10
        else 0 := by
      split_ifs with h
      · exact le_min (by positivity) (by norm_num)
      · exact le_refl 0
    linarith
  · exact min_le_right _ _

/-- The velocity factor is within [0, 100]. -/
theorem velocity_bounds (now : ℚ) (t : Topic) :
    0 ≤ calculate_velocity_score now t ∧ calculate_velocity_score now t ≤ 100 := by
  simp only [calculate_velocity_score]
  by_cases h : t.trending_velocity > 0
  · rw [if_pos h]
    exact ⟨le_min (le_of_lt h) (by norm_num), min_le_right _ _⟩
  · rw [if_neg h]
    split
    · norm_num
    · split_ifs <;> norm_num

/-- The uniqueness factor is within [0, 100] (in fact at least 10 when a
batch is present). -/
theorem uniqueness_bounds (t : Topic) (l : List Topic) :
    0 ≤ calculate_uniqueness_score t l ∧ calculate_uniqueness_score t l ≤ 100 := by
  rw [calculate_uniqueness_score]
  split_ifs with h
  · norm_num
  · constructor
    · exact le_trans (by norm_num) (le_max_right _ 10)
    · refine max_le ?_ (by norm_num)
      have hm : 0 ≤ maxOverlapU t l := by
        rw [maxOverlapU, maxOverlapU_foldl_eq t l 0 le_rfl]
        exact le_max_left 0 _
      nlinarith

/-- Rounding a non-negative rational stays non-negative. -/
theorem roundHalfEven_nonneg (x : ℚ) (hx : 0 ≤ x) : 0 ≤ roundHalfEven x := by
  rw [roundHalfEven]
  have hf : (0 : ℤ) ≤ ⌊x⌋ := Int.floor_nonneg.mpr hx
  split_ifs <;> omega

/-- Rounding never climbs past an integer upper bound. -/
theorem roundHalfEven_le (x : ℚ) (n : ℤ) (hx : x ≤ (n : ℚ)) :
    roundHalfEven x ≤ n := by
  rw [roundHalfEven]
  have hf : ⌊x⌋ ≤ n := by
    have := Int.floor_le_floor hx
    rwa [Int.floor_intCast] at this
  have hfl : (⌊x⌋ : ℚ) ≤ x := Int.floor_le x
  split_ifs with h1 h2 h3
  · exact hf
  · have hlt : (⌊x⌋ : ℚ) < (n : ℚ) := by linarith
    have : ⌊x⌋ < n := by exact_mod_cast hlt
    omega
  · exact hf
  · have hr : x - ⌊x⌋ = 1 / 2 := le_antisymm (not_lt.mp h2) (not_lt.mp h1)
    have hlt : (⌊x⌋ : ℚ) < (n : ℚ) := by linarith
    have : ⌊x⌋ < n := by exact_mod_cast hlt
    omega

/-- Two-decimal rounding keeps values inside [0, 100]. -/
theorem round2_bounds (q : ℚ) (h0 : 0 ≤ q) (h100 : q ≤ 100) :
    0 ≤ round2 q ∧ round2 q ≤ 100 := by
  rw [round2]
  have hn : 0 ≤ roundHalfEven (q * 100) := roundHalfEven_nonneg _ (by positivity)
  have hu : roundHalfEven (q * 100) ≤ 10000 :=
    roundHalfEven_le _ 10000 (by push_cast; linarith)
  constructor
  · exact div_nonneg (by exact_mod_cast hn) (by norm_num)
  · rw [div_le_iff₀ (by norm_num : (0 : ℚ) < 100)]
    calc (roundHalfEven (q * 100) : ℚ) ≤ 10000 := by exact_mod_cast hu
    _ = 100 * 100 := by norm_num


/-- C1: the final score is the two-decimal rounding of the weighted sum
of the five factors (weights 0.25 / 0.20 / 0.25 / 0.15 / 0.15); since
every factor lies in [0,100] and the weights sum to 1, the result lies
in [0,100] with no extra clamp, and hence so does the `virality_score`
of every topic `curate_topics` returns. -/
theorem score_topic_bounded (c : ContentCurator) (now : ℚ) (t : Topic)
    (existing : List Topic) (topics : List Topic) (limit : Nat)
    (cats : Option (List ContentCategory)) (ms : Option ℚ) :
    score_topic c now t existing =
      round2 (calculate_engagement_score t * (0.25 : ℚ)
        + calculate_recency_score now t * (0.20 : ℚ)
        + calculate_relevance_score c t * (0.25 : ℚ)
        + calculate_velocity_score now t * (0.15 : ℚ)
        + calculate_uniqueness_score t existing * (0.15 : ℚ)) ∧
    (0 ≤ score_topic c now t existing ∧ score_topic c now t existing ≤ 100) ∧
    ∀ u ∈ curate_topics c now topics limit cats ms,
      0 ≤ u.virality_score ∧ u.virality_score ≤ 100 := by
  have hbody : ∀ (s : Topic) (l : List Topic),
      0 ≤ score_topic c now s l ∧ score_topic c now s l ≤ 100 := by
    intro s l
    rw [score_topic]
    have he := engagement_bounds s
    have hr := recency_bounds now s
    have hl := relevance_bounds c s
    have hv := velocity_bounds now s
    have hu := uniqueness_bounds s l
    exact round2_bounds _ (by nlinarith [he.1, hr.1, hl.1, hv.1, hu.1])
      (by nlinarith [he.2, hr.2, hl.2, hv.2, hu.2])
  refine ⟨rfl, hbody t existing, ?_⟩
  intro u hu
  have h1 : u ∈ curateSorted c now topics cats ms := List.take_subset _ _ hu
  have h2 : u ∈ curateFiltered c now topics cats ms := by
    rw [curateSorted] at h1
    exact (mem_sortByScoreDesc _ u).mp h1
  simp only [curateFiltered, List.mem_filter, decide_eq_true_eq] at h2
  rcases mem_curateScored c now topics cats u h2.1 with ⟨s, _, rfl⟩
  exact hbody s _

/-- Witness for C1: the curated singleton batch `[tW]` yields a score in
range. -/
theorem score_topic_bounded_witness :
    0 ≤ ({ tW with virality_score := (79 / 2 : ℚ) }).virality_score ∧
    ({ tW with virality_score := (79 / 2 : ℚ) }).virality_score ≤ 100 :=
  (score_topic_bounded {} 0 tW [] [tW] 25 none none).2.2 _
    (by rw [curate_topics_tW none rfl none (by norm_num)]
        exact List.mem_singleton_self _)

/-- C9 counterexample: `topics_discovered` is assigned BEFORE dedup, so
on two same-titled topics from two sources it records 2 while the
deduped merge holds a single topic. -/
theorem session_counts_prededup_counterexample :
    (research_trending {} 0 25 none 0
        [Except.ok [d1], Except.ok [d2]]).2.topics_discovered
      ≠ (deduplicate_topics (0.6 : ℚ)
          (mergeResults [Except.ok [d1], Except.ok [d2]])).length := by
  have hmerge : mergeResults [Except.ok [d1], Except.ok [d2]] = [d1, d2] := rfl
  have hdup : isDup (0.6 : ℚ) d2 d1 = true := by
    rw [isDup_eval _ _ _ 1 1 (by decide) (by decide)]
    norm_num [max_def]
  have hv : ¬ (d1.virality_score < d2.virality_score) := by
    show ¬ ((0 : ℚ) < 0); norm_num
  have hdedup : deduplicate_topics (0.6 : ℚ) [d1, d2] = [d1] := by
    simp [deduplicate_topics, dedupStep, List.find?, hdup, hv]
  have hcount : (research_trending {} 0 25 none 0
      [Except.ok [d1], Except.ok [d2]]).2.topics_discovered = 2 := rfl
  rw [hcount, hmerge, hdedup]
  norm_num

/-- C9 amended: `research_trending` creates the session at the start
(`search` never creates one), sets `topics_discovered` to the size of
the raw merge — after the merge loop but BEFORE dedup — then runs
dedup + curation, and finally sets `topics_curated` and
`completed_at`. -/
theorem session_lifecycle (c : ContentCurator) (now : ℚ) (limit : Nat)
    (cats : Option (List ContentCategory)) (ms : ℚ)
    (results : List (Except Unit (List Topic))) :
    (research_trending c now limit cats ms results).2.started_at = now ∧
    (research_trending c now limit cats ms results).2.topics_discovered
      = (mergeResults results).length ∧
    (research_trending c now limit cats ms results).1
      = curate_topics c now
          (deduplicate_topics (0.6 : ℚ) (mergeResults results)) limit cats
          (some ms) ∧
    (research_trending c now limit cats ms results).2.topics_curated
      = (research_trending c now limit cats ms results).1.length ∧
    (research_trending c now limit cats ms results).2.completed_at = some now :=
  ⟨rfl, rfl, rfl, rfl, rfl⟩

end VCR
